import Mathlib

/-!
# Verification of the PDF-outliner crop workspace core

Shallow embedding of the coordinate-transform, preset-store, editor and
export logic of the PDF-outliner repository.  JS numbers are modelled as
exact rationals (`ℚ`); the stateful React workspace is modelled by explicit
state passing on a `Workspace` record; fallible operations return `Except`.
-/

namespace PDFOutliner

/-- `clamp` from `src/utils/lib.ts`:
`Math.max(min, Math.min(max, n))`. -/
def clamp (n mn mx : ℚ) : ℚ := max mn (min mx n)

/-- A rectangle in ratio space, as stored in a crop preset
(`x`,`y` top-left origin, all fields ratios of the page size). -/
@[ext]
structure RatioRect where
  x : ℚ
  y : ℚ
  width : ℚ
  height : ℚ
deriving DecidableEq, Repr

/-- A rectangle in PDF point space (bottom-left origin). -/
@[ext]
structure PdfRect where
  x : ℚ
  y : ℚ
  width : ℚ
  height : ℚ
deriving DecidableEq, Repr

/-- `applyCropToPage` from `src/utils/lib.ts` (lines 176–197): converts a
ratio rectangle to PDF point space (flipping the vertical axis) and clamps
the result to the page, with a minimum extent of 1 point.  The source sets
the result as the page's crop box; here we return the rectangle passed to
`setCropBox`. -/
def applyCropToPage (preset : RatioRect) (pageWidth pageHeight : ℚ) : PdfRect :=
  let pdfX := preset.x * pageWidth
  let pdfY := pageHeight - preset.y * pageHeight - preset.height * pageHeight
  let pdfWidth := preset.width * pageWidth
  let pdfHeight := preset.height * pageHeight
  let clampedX := clamp pdfX 0 pageWidth
  let clampedY := clamp pdfY 0 pageHeight
  let clampedWidth := clamp pdfWidth 1 (pageWidth - clampedX)
  let clampedHeight := clamp pdfHeight 1 (pageHeight - clampedY)
  ⟨clampedX, clampedY, clampedWidth, clampedHeight⟩

/-- The inverse mapping from PDF point space back to ratio space referred to
by the spec's round-trip property: invert the (unclamped) linear part of
`applyCropToPage`, i.e. divide by the page size and flip the vertical axis
back. -/
def pdfRectToRatio (r : PdfRect) (pageWidth pageHeight : ℚ) : RatioRect :=
  ⟨r.x / pageWidth,
   (pageHeight - r.y - r.height) / pageHeight,
   r.width / pageWidth,
   r.height / pageHeight⟩

section ClampLemmas

theorem clamp_eq_self {n mn mx : ℚ} (h1 : mn ≤ n) (h2 : n ≤ mx) :
    clamp n mn mx = n := by
  unfold clamp
  rw [min_eq_right h2, max_eq_right h1]

theorem le_clamp (n mn mx : ℚ) : mn ≤ clamp n mn mx := le_max_left _ _

theorem clamp_le {n mn mx : ℚ} (h : mn ≤ mx) : clamp n mn mx ≤ mx :=
  max_le h (min_le_left _ _)

theorem clamp_le_max (n mn mx : ℚ) : clamp n mn mx ≤ max mn mx :=
  max_le_max_left _ (min_le_left _ _)

end ClampLemmas

/-- C1 (counterexample): the round-trip claim fails as stated.  The
rectangle `{x:0, y:0, width:1/2, height:1/2}` satisfies `0 ≤ x,y`,
`x+width ≤ 1`, `y+height ≤ 1`, yet on a 1×1-point page the minimum-1-point
clamp of `applyCropToPage` forces `clampedWidth = clampedHeight = 1`, and
the inverse mapping returns width 1 instead of 1/2 — a discrepancy of 0.5,
far beyond floating-point tolerance. -/
theorem c1_roundtrip_counterexample :
    pdfRectToRatio (applyCropToPage ⟨0, 0, 1/2, 1/2⟩ 1 1) 1 1 ≠
      (⟨0, 0, 1/2, 1/2⟩ : RatioRect) := by
  norm_num [applyCropToPage, pdfRectToRatio, clamp, RatioRect.mk.injEq,
    max_def, min_def]

/-- C1 (amended): for ratio rectangles with `0 ≤ x, y`, `x+width ≤ 1`,
`y+height ≤ 1`, and positive page sizes such that the crop spans at least
1 PDF point in each dimension (`width·pageWidth ≥ 1`, `height·pageHeight ≥ 1`),
applying `applyCropToPage` and then the inverse mapping back to ratio space
recovers the rectangle exactly (in exact rational arithmetic). -/
theorem c1_roundtrip (r : RatioRect) (W H : ℚ)
    (hx : 0 ≤ r.x) (hy : 0 ≤ r.y)
    (hxw : r.x + r.width ≤ 1) (hyh : r.y + r.height ≤ 1)
    (hW : 0 < W) (hH : 0 < H)
    (hw1 : 1 ≤ r.width * W) (hh1 : 1 ≤ r.height * H) :
    pdfRectToRatio (applyCropToPage r W H) W H = r := by
  have hw0 : 0 < r.width := by nlinarith
  have hh0 : 0 < r.height := by nlinarith
  simp only [applyCropToPage, pdfRectToRatio]
  have e1 : clamp (r.x * W) 0 W = r.x * W :=
    clamp_eq_self (mul_nonneg hx hW.le) (by nlinarith)
  have e2 : clamp (H - r.y * H - r.height * H) 0 H = H - r.y * H - r.height * H :=
    clamp_eq_self (by nlinarith) (by nlinarith)
  rw [e1, e2]
  have e3 : clamp (r.width * W) 1 (W - r.x * W) = r.width * W :=
    clamp_eq_self hw1 (by nlinarith)
  have e4 : clamp (r.height * H) 1 (H - (H - r.y * H - r.height * H)) = r.height * H :=
    clamp_eq_self hh1 (by nlinarith)
  rw [e3, e4]
  ext <;> (field_simp; try ring)

/-- C1 (witness): the amended round-trip at the spec's US-Letter scenario
rectangle `{x:0.1, y:0.1, width:0.5, height:0.5}` on a 612×792-point page. -/
theorem c1_roundtrip_witness :
    0 ≤ (1/10 : ℚ) ∧ (1/10 : ℚ) + 1/2 ≤ 1 ∧ (0 : ℚ) < 612 ∧ (0 : ℚ) < 792 ∧
    1 ≤ (1/2 : ℚ) * 612 ∧ 1 ≤ (1/2 : ℚ) * 792 ∧
    pdfRectToRatio (applyCropToPage ⟨1/10, 1/10, 1/2, 1/2⟩ 612 792) 612 792 =
      (⟨1/10, 1/10, 1/2, 1/2⟩ : RatioRect) :=
  ⟨by norm_num, by norm_num, by norm_num, by norm_num, by norm_num, by norm_num,
   c1_roundtrip ⟨1/10, 1/10, 1/2, 1/2⟩ 612 792 (by norm_num) (by norm_num)
     (by norm_num) (by norm_num) (by norm_num) (by norm_num) (by norm_num)
     (by norm_num)⟩

/-- C2 (counterexample): the claim that the crop box always lies within the
page bounds fails.  For the (§3-valid) preset `{x:0.9, y:0.9, width:0.1,
height:0.1}` on a 5×5-point page, `clampedX = 4.5` and the width clamp
`clamp(0.5, 1, 5 − 4.5)` has its minimum above its maximum: JS
`Math.max(1, Math.min(0.5, 0.5)) = 1 > 0.5 = pageWidth − clampedX`, so the
rectangle passed to `setCropBox` sticks out of the page. -/
theorem c2_cropbox_counterexample :
    (0 : ℚ) < 5 ∧
    ¬ ((applyCropToPage ⟨9/10, 9/10, 1/10, 1/10⟩ 5 5).width ≤
        5 - (applyCropToPage ⟨9/10, 9/10, 1/10, 1/10⟩ 5 5).x) := by
  constructor
  · norm_num
  · norm_num [applyCropToPage, clamp, max_def, min_def]

/-- C2 (amended): for every ratio rectangle and positive page size, the
rectangle produced by `applyCropToPage` satisfies `0 ≤ clampedX ≤ pageWidth`,
`0 ≤ clampedY ≤ pageHeight`, `clampedWidth, clampedHeight ≥ 1`,
`clampedWidth ≤ max 1 (pageWidth − clampedX)` and
`clampedHeight ≤ max 1 (pageHeight − clampedY)`; in particular the rectangle
lies within the page bounds whenever at least 1 point of room remains
(`pageWidth − clampedX ≥ 1` and `pageHeight − clampedY ≥ 1`), but the
minimum-1-point floor overrides the page bound when less than 1 point
remains. -/
theorem c2_cropbox_bounds (r : RatioRect) (W H : ℚ) (hW : 0 < W) (hH : 0 < H) :
    0 ≤ (applyCropToPage r W H).x ∧ (applyCropToPage r W H).x ≤ W ∧
    0 ≤ (applyCropToPage r W H).y ∧ (applyCropToPage r W H).y ≤ H ∧
    1 ≤ (applyCropToPage r W H).width ∧ 1 ≤ (applyCropToPage r W H).height ∧
    (applyCropToPage r W H).width ≤ max 1 (W - (applyCropToPage r W H).x) ∧
    (applyCropToPage r W H).height ≤ max 1 (H - (applyCropToPage r W H).y) ∧
    (1 ≤ W - (applyCropToPage r W H).x →
      (applyCropToPage r W H).width ≤ W - (applyCropToPage r W H).x) ∧
    (1 ≤ H - (applyCropToPage r W H).y →
      (applyCropToPage r W H).height ≤ H - (applyCropToPage r W H).y) := by
  simp only [applyCropToPage]
  exact ⟨le_clamp _ _ _, clamp_le hW.le, le_clamp _ _ _, clamp_le hH.le,
    le_clamp _ _ _, le_clamp _ _ _, clamp_le_max _ _ _, clamp_le_max _ _ _,
    fun h1 => clamp_le h1, fun h1 => clamp_le h1⟩

/-- C2 (witness): the amended bounds at the spec's US-Letter scenario. -/
theorem c2_cropbox_bounds_witness :
    (0 : ℚ) < 612 ∧ (0 : ℚ) < 792 ∧
    (0 ≤ (applyCropToPage ⟨1/10, 1/10, 1/2, 1/2⟩ 612 792).x ∧
     (applyCropToPage ⟨1/10, 1/10, 1/2, 1/2⟩ 612 792).x ≤ 612 ∧
     0 ≤ (applyCropToPage ⟨1/10, 1/10, 1/2, 1/2⟩ 612 792).y ∧
     (applyCropToPage ⟨1/10, 1/10, 1/2, 1/2⟩ 612 792).y ≤ 792 ∧
     1 ≤ (applyCropToPage ⟨1/10, 1/10, 1/2, 1/2⟩ 612 792).width ∧
     1 ≤ (applyCropToPage ⟨1/10, 1/10, 1/2, 1/2⟩ 612 792).height ∧
     (applyCropToPage ⟨1/10, 1/10, 1/2, 1/2⟩ 612 792).width ≤
       max 1 (612 - (applyCropToPage ⟨1/10, 1/10, 1/2, 1/2⟩ 612 792).x) ∧
     (applyCropToPage ⟨1/10, 1/10, 1/2, 1/2⟩ 612 792).height ≤
       max 1 (792 - (applyCropToPage ⟨1/10, 1/10, 1/2, 1/2⟩ 612 792).y) ∧
     (1 ≤ 612 - (applyCropToPage ⟨1/10, 1/10, 1/2, 1/2⟩ 612 792).x →
       (applyCropToPage ⟨1/10, 1/10, 1/2, 1/2⟩ 612 792).width ≤
         612 - (applyCropToPage ⟨1/10, 1/10, 1/2, 1/2⟩ 612 792).x) ∧
     (1 ≤ 792 - (applyCropToPage ⟨1/10, 1/10, 1/2, 1/2⟩ 612 792).y →
       (applyCropToPage ⟨1/10, 1/10, 1/2, 1/2⟩ 612 792).height ≤
         792 - (applyCropToPage ⟨1/10, 1/10, 1/2, 1/2⟩ 612 792).y)) :=
  ⟨by norm_num, by norm_num,
   c2_cropbox_bounds ⟨1/10, 1/10, 1/2, 1/2⟩ 612 792 (by norm_num) (by norm_num)⟩

/-! ## Export pipeline (`exportCroppedPdf`, `src/utils/lib.ts` lines 211–265) -/

/-- The list of 0-indexed page indices copied by `exportCroppedPdf`
(`src/utils/lib.ts` lines 221–229): the full range when no page range is
given, otherwise the clamped range, converted to 0-indexed. -/
def pagesToExport (totalPages : ℕ) (pageRange : Option (ℤ × ℤ)) : List ℤ :=
  match pageRange with
  | some (s, e) =>
      let startPage := max 1 (min s (totalPages : ℤ))
      let endPage := max startPage (min e (totalPages : ℤ))
      (List.range (endPage - startPage + 1).toNat).map
        (fun (i : ℕ) => startPage + (i : ℤ) - 1)
  | none => (List.range totalPages).map (fun (i : ℕ) => (i : ℤ))

/-- Strip one trailing `.pdf` (case-insensitive) from a filename: the model
of `originalFilename.replace(/\.pdf$/i, "")` in `exportCroppedPdf`. -/
def stripPdfExt (name : String) : String :=
  if (name.data.reverse.take 4).map Char.toLower = ['f', 'd', 'p', '.'] then
    ⟨name.data.take (name.data.length - 4)⟩
  else name

/-- The output filename built by `exportCroppedPdf`
(`src/utils/lib.ts` lines 247–259). -/
def exportFilename (originalFilename : String) (totalPages : ℕ)
    (pageRange : Option (ℤ × ℤ)) : String :=
  let baseName := stripPdfExt originalFilename
  match pageRange with
  | none => baseName ++ "_cropped.pdf"
  | some (s, e) =>
      let startPage := max 1 (min s (totalPages : ℤ))
      let endPage := max startPage (min e (totalPages : ℤ))
      if startPage = endPage then
        baseName ++ "_cropped_page" ++ toString startPage ++ ".pdf"
      else
        baseName ++ "_cropped_pages" ++ toString startPage ++ "-" ++
          toString endPage ++ ".pdf"

/-- The user-facing rejection reasons of the export flow in
`handleExportCroppedPdf` (`src/pages/pdf-cropper.tsx`). -/
inductive ExportRangeError
  | missingDocument
  | outOfBounds
  | inverted
deriving DecidableEq, Repr

/-- The page-range validation of `handleExportCroppedPdf`
(`src/pages/pdf-cropper.tsx` lines 336–374): when not exporting all pages it
first clamps `start`/`end` into the document, then checks the clamped values
for being out of `[1,total]` or inverted, and on success passes the
(independently re-clamped) range on to `exportCroppedPdf`.  Returns the
`pageRange` argument handed to `exportCroppedPdf` when the export proceeds. -/
def validateExportRange (exportAllPages : Bool) (startPage endPage : ℤ)
    (totalPages : ℕ) : Except ExportRangeError (Option (ℤ × ℤ)) :=
  if exportAllPages then .ok none
  else if totalPages = 0 then .error .missingDocument
  else
    let start := max 1 (min startPage (totalPages : ℤ))
    let stop := max start (min endPage (totalPages : ℤ))
    if start < 1 ∨ stop < 1 ∨ start > (totalPages : ℤ) ∨ stop > (totalPages : ℤ) then
      .error .outOfBounds
    else if start > stop then .error .inverted
    else
      .ok (some (max 1 (min startPage (totalPages : ℤ)),
                 max 1 (min endPage (totalPages : ℤ))))

/-- The filename rule as worded by the spec: strip one trailing `.pdf`
(case-insensitive), append `_cropped`, then exactly when a page range was
supplied append `_page{N}` for a single-page clamped range or
`_pages{start}-{end}` for a multi-page one, and finish with `.pdf`. -/
def exportFilenameSpec (originalFilename : String) (totalPages : ℕ)
    (pageRange : Option (ℤ × ℤ)) : String :=
  let rangeSuffix :=
    match pageRange with
    | none => ""
    | some (s, e) =>
        let startPage := max 1 (min s (totalPages : ℤ))
        let endPage := max startPage (min e (totalPages : ℤ))
        if startPage = endPage then "_page" ++ toString startPage
        else "_pages" ++ toString startPage ++ "-" ++ toString endPage
  stripPdfExt originalFilename ++ "_cropped" ++ rangeSuffix ++ ".pdf"

theorem string_append_assoc (a b c : String) : a ++ b ++ c = a ++ (b ++ c) := by
  rcases a with ⟨la⟩
  rcases b with ⟨lb⟩
  rcases c with ⟨lc⟩
  show String.mk (la ++ lb ++ lc) = String.mk (la ++ (lb ++ lc))
  rw [List.append_assoc]

/-- C6: the claim that an invalid page range is rejected before any page
copying fails on the code.  For `startPage = 10 > endPage = 3` on a 5-page
document, `handleExportCroppedPdf` clamps before validating, so its
rejection branches are unreachable: validation succeeds and
`exportCroppedPdf` is invoked with range `(5, 3)`, copies 0-indexed page 4
and produces a 1-page output named `..._cropped_page5.pdf`. -/
theorem c6_invalid_range_not_rejected :
    validateExportRange false 10 3 5 =
      Except.ok (some (5, 3)) ∧
    pagesToExport 5 (some (5, 3)) = [4] ∧
    exportFilename "doc.pdf" 5 (some (5, 3)) = "doc_cropped_page5.pdf" := by
  refine ⟨rfl, by decide, by decide⟩

/-- C7: `exportCroppedPdf` with no page range copies all `totalPages` pages
in order; with a range it copies exactly the contiguous 1-based pages
`start..end` where `start = max(1, min(startPage, totalPages))` and
`end = max(start, min(endPage, totalPages))` (each exported 0-indexed entry
`p` corresponds to 1-based page `p+1`); the range `{start:2, end:2}` on a
5-page document yields exactly one page. -/
theorem c7_pages_exported (total : ℕ) (s e : ℤ) :
    pagesToExport total none = (List.range total).map (fun (i : ℕ) => (i : ℤ)) ∧
    (∀ p : ℤ, p ∈ pagesToExport total (some (s, e)) ↔
      max 1 (min s (total : ℤ)) ≤ p + 1 ∧
      p + 1 ≤ max (max 1 (min s (total : ℤ))) (min e (total : ℤ))) ∧
    pagesToExport 5 (some (2, 2)) = [1] := by
  refine ⟨rfl, ?_, by decide⟩
  intro p
  set A := max 1 (min s (total : ℤ)) with hA'
  set B := max A (min e (total : ℤ)) with hB'
  have hA : (1 : ℤ) ≤ A := le_max_left _ _
  have hAB : A ≤ B := le_max_left _ _
  have hunfold : pagesToExport total (some (s, e)) =
      (List.range (B - A + 1).toNat).map (fun (i : ℕ) => A + (i : ℤ) - 1) := rfl
  rw [hunfold, List.mem_map]
  constructor
  · rintro ⟨i, hi, rfl⟩
    rw [List.mem_range] at hi
    omega
  · rintro ⟨h1, h2⟩
    exact ⟨(p + 1 - A).toNat, List.mem_range.mpr (by omega), by omega⟩

/-- C8: the output filename produced by `exportCroppedPdf` agrees, for every
original filename, page count and optional page range, with the spec's rule:
strip one trailing `.pdf` (case-insensitively), append `_cropped`, then
exactly when a page range was supplied append `_page{N}` (single-page
clamped range) or `_pages{start}-{end}` (multi-page), and end with `.pdf`. -/
theorem c8_filename (name : String) (total : ℕ) (pr : Option (ℤ × ℤ)) :
    exportFilename name total pr = exportFilenameSpec name total pr := by
  have hl0 : ("_cropped" : String).data ++ (".pdf" : String).data =
      ("_cropped.pdf" : String).data := by decide
  have hl1 : ("_cropped" : String).data ++ ("_page" : String).data =
      ("_cropped_page" : String).data := by decide
  have hl2 : ("_cropped" : String).data ++ ("_pages" : String).data =
      ("_cropped_pages" : String).data := by decide
  have he : ("" : String).data = ([] : List Char) := rfl
  cases pr with
  | none =>
      dsimp only [exportFilename, exportFilenameSpec]
      apply String.ext
      simp only [String.data_append, he, List.append_nil, ← List.append_assoc]
      rw [List.append_assoc (stripPdfExt name).data ("_cropped" : String).data
        (".pdf" : String).data, hl0]
  | some se =>
      rcases se with ⟨s, e⟩
      dsimp only [exportFilename, exportFilenameSpec]
      split
      · apply String.ext
        simp only [String.data_append, ← List.append_assoc]
        rw [List.append_assoc (stripPdfExt name).data ("_cropped" : String).data
          ("_page" : String).data, hl1]
      · apply String.ext
        simp only [String.data_append, ← List.append_assoc]
        rw [List.append_assoc (stripPdfExt name).data ("_cropped" : String).data
          ("_pages" : String).data, hl2]

/-! ## Workspace and preset store (`src/hooks/use-workspace.ts`,
`src/utils/indexed-db.ts`) -/

/-- A crop preset (`CropPreset` in `src/types.ts`): an id, an optional
display name and a ratio-space rectangle. -/
structure CropPreset where
  id : String
  name : Option String
  x : ℚ
  y : ℚ
  width : ℚ
  height : ℚ
deriving DecidableEq, Repr

/-- The workspace state of `useWorkspace`, together with the persisted
IndexedDB stores it mirrors.  `presets`/`pages` are the in-memory React
state; `persistedPresets` models the `cropPresets` object store (keyed by
preset id) and `persistedPageStates` the `pageStates` object store (keyed
by page number, holding the applied preset id). -/
structure Workspace where
  pdfId : Option String
  presets : List CropPreset
  pages : List (ℕ × Option String)
  persistedPresets : List CropPreset
  persistedPageStates : List (ℕ × Option String)
deriving DecidableEq, Repr

/-- Errors signalled by the preset store. -/
inductive StoreError
  | limitExceeded
  | invalidGeometry
deriving DecidableEq, Repr

/-- Key-based lookup in a page-state (or similar) association list, the
model of reading one record of an object store / one field of a JS object
keyed by page number. -/
def lookupPage (pages : List (ℕ × Option String)) (n : ℕ) :
    Option (Option String) :=
  match pages with
  | [] => none
  | (k, v) :: rest => if n = k then some v else lookupPage rest n

/-- `IDBObjectStore.put` semantics for the `cropPresets` store
(`storeCropPreset`, `src/utils/indexed-db.ts` lines 228–232): replace the
record with the same key, else insert. -/
def putPreset (store : List CropPreset) (p : CropPreset) : List CropPreset :=
  if store.any (fun q => q.id = p.id) then
    store.map (fun q => if q.id = p.id then p else q)
  else store ++ [p]

/-- `createPreset` from `src/hooks/use-workspace.ts` (lines 188–204):
no-op without a loaded document; throws (here: `Except.error`) when the
preset count has reached the configured maximum `MAX_PRESETS_PER_PDF`
(whose value lives in `src/config`, outside the sources; it is therefore a
parameter `maxPresets` here); otherwise persists via `storeCropPreset` and
appends to the in-memory list. -/
def createPreset (maxPresets : ℕ) (ws : Workspace) (preset : CropPreset) :
    Except StoreError Workspace :=
  match ws.pdfId with
  | none => .ok ws
  | some _ =>
      if maxPresets ≤ ws.presets.length then .error .limitExceeded
      else .ok { ws with
        persistedPresets := putPreset ws.persistedPresets preset,
        presets := ws.presets ++ [preset] }

/-- `deletePreset` from `src/hooks/use-workspace.ts` (lines 206–226)
combined with `deleteCropPreset` (`src/utils/indexed-db.ts` lines 267–271):
deletes the preset record from the persisted `cropPresets` store, filters it
out of the in-memory list and clears `appliedPresetId` on the in-memory page
map entries that referenced it.  No write is issued to the persisted
`pageStates` store, so `persistedPageStates` is unchanged. -/
def deletePreset (ws : Workspace) (presetId : String) : Workspace :=
  match ws.pdfId with
  | none => ws
  | some _ =>
      { ws with
        persistedPresets := ws.persistedPresets.filter (fun p => p.id ≠ presetId),
        presets := ws.presets.filter (fun p => p.id ≠ presetId),
        pages := ws.pages.map (fun pv =>
          if pv.2 = some presetId then (pv.1, none) else pv) }

/-- The §3 geometry invariant of a ratio rectangle:
`0 ≤ x ≤ 1`, `0 ≤ y ≤ 1`, `0 < width ≤ 1−x`, `0 < height ≤ 1−y`. -/
def validGeometry (r : RatioRect) : Prop :=
  0 ≤ r.x ∧ r.x ≤ 1 ∧ 0 ≤ r.y ∧ r.y ≤ 1 ∧
  0 < r.width ∧ r.width ≤ 1 - r.x ∧ 0 < r.height ∧ r.height ≤ 1 - r.y

instance (r : RatioRect) : Decidable (validGeometry r) := by
  unfold validGeometry
  infer_instance

/-- Modelled from the spec: the preset store's `updateGeometry` operation
(`updatePreset` in the workspace hook's return value).  Its implementation
is missing from the sources — only its callers (`handleMouseUp` in the page
cropper, `pdf-cropper.tsx` passing `updatePreset` through) and the hook
interface `UseWorkspaceReturn` (`use-workspace.ts` lines 32–44, which does
not even declare it) are present.  Per §4.2 of the spec it re-validates the
§3 invariant before persisting and rejects with `InvalidGeometry`
otherwise, leaving the stored geometry unchanged. -/
def updateGeometry (ws : Workspace) (presetId : String) (r : RatioRect) :
    Except StoreError Workspace :=
  if validGeometry r then
    .ok { ws with
      presets := ws.presets.map (fun p =>
        if p.id = presetId then
          { p with x := r.x, y := r.y, width := r.width, height := r.height }
        else p),
      persistedPresets := ws.persistedPresets.map (fun p =>
        if p.id = presetId then
          { p with x := r.x, y := r.y, width := r.width, height := r.height }
        else p) }
  else .error .invalidGeometry

theorem lookupPage_map_clear (pid : String) (l : List (ℕ × Option String))
    (n : ℕ) :
    lookupPage (l.map (fun pv =>
        if pv.2 = some pid then (pv.1, none) else pv)) n =
      (lookupPage l n).map (fun v => if v = some pid then none else v) := by
  induction l with
  | nil => rfl
  | cons hd tl ih =>
      rcases hd with ⟨k, v⟩
      simp only [List.map_cons]
      by_cases hv : v = some pid
      · rw [if_pos hv]
        simp only [lookupPage]
        by_cases hnk : n = k
        · rw [if_pos hnk, if_pos hnk]
          simp [hv]
        · rw [if_neg hnk, if_neg hnk]
          exact ih
      · rw [if_neg hv]
        simp only [lookupPage]
        by_cases hnk : n = k
        · rw [if_pos hnk, if_pos hnk]
          simp [hv]
        · rw [if_neg hnk, if_neg hnk]
          exact ih

/-- C3: `updateGeometry` re-validates the §3 geometry invariant before
persisting; for a rectangle violating the invariant it rejects with
`InvalidGeometry`, and the previously stored geometry is left unchanged
(the failed update produces no new workspace state, so the stored state
remains the old one). -/
theorem c3_updateGeometry_rejects (ws : Workspace) (presetId : String)
    (r : RatioRect) (h : ¬ validGeometry r) :
    updateGeometry ws presetId r = Except.error StoreError.invalidGeometry ∧
    (updateGeometry ws presetId r).toOption.getD ws = ws := by
  unfold updateGeometry
  rw [if_neg h]
  exact ⟨rfl, rfl⟩

/-- C3 (witness): a rectangle with negative `x` violates the invariant and
is rejected, leaving the workspace unchanged. -/
theorem c3_updateGeometry_rejects_witness :
    ¬ validGeometry ⟨-1/10, 0, 1/2, 1/2⟩ ∧
    (updateGeometry
      ⟨some "doc", [⟨"p1", none, 0, 0, 1/2, 1/2⟩], [],
        [⟨"p1", none, 0, 0, 1/2, 1/2⟩], []⟩ "p1" ⟨-1/10, 0, 1/2, 1/2⟩ =
      Except.error StoreError.invalidGeometry ∧
    (updateGeometry
      ⟨some "doc", [⟨"p1", none, 0, 0, 1/2, 1/2⟩], [],
        [⟨"p1", none, 0, 0, 1/2, 1/2⟩], []⟩ "p1"
        ⟨-1/10, 0, 1/2, 1/2⟩).toOption.getD
      ⟨some "doc", [⟨"p1", none, 0, 0, 1/2, 1/2⟩], [],
        [⟨"p1", none, 0, 0, 1/2, 1/2⟩], []⟩ =
      ⟨some "doc", [⟨"p1", none, 0, 0, 1/2, 1/2⟩], [],
        [⟨"p1", none, 0, 0, 1/2, 1/2⟩], []⟩) :=
  ⟨by norm_num [validGeometry],
   c3_updateGeometry_rejects _ "p1" _ (by norm_num [validGeometry])⟩

/-- C4: for a workspace with a loaded document whose preset count equals the
configured maximum, `createPreset` fails with `LimitExceeded` and mutates
neither the in-memory presets list nor the persisted preset collection
(a failed call produces no new workspace state). -/
theorem c4_createPreset_limit (maxPresets : ℕ) (ws : Workspace)
    (preset : CropPreset) (docId : String) (hdoc : ws.pdfId = some docId)
    (hcount : ws.presets.length = maxPresets) :
    createPreset maxPresets ws preset = Except.error StoreError.limitExceeded ∧
    ((createPreset maxPresets ws preset).toOption.getD ws).presets =
      ws.presets ∧
    ((createPreset maxPresets ws preset).toOption.getD ws).persistedPresets =
      ws.persistedPresets := by
  have hcond : maxPresets ≤ ws.presets.length := by omega
  simp only [createPreset, hdoc]
  rw [if_pos hcond]
  exact ⟨rfl, rfl, rfl⟩

/-- C4 (witness): with a maximum of 1 preset and one stored preset,
creation fails with `LimitExceeded` and changes nothing. -/
theorem c4_createPreset_limit_witness :
    (⟨some "doc", [⟨"p1", none, 0, 0, 1/2, 1/2⟩], [],
      [⟨"p1", none, 0, 0, 1/2, 1/2⟩], []⟩ : Workspace).pdfId = some "doc" ∧
    (⟨some "doc", [⟨"p1", none, 0, 0, 1/2, 1/2⟩], [],
      [⟨"p1", none, 0, 0, 1/2, 1/2⟩], []⟩ : Workspace).presets.length = 1 ∧
    (createPreset 1
      ⟨some "doc", [⟨"p1", none, 0, 0, 1/2, 1/2⟩], [],
        [⟨"p1", none, 0, 0, 1/2, 1/2⟩], []⟩
      ⟨"p2", none, 0, 0, 1/4, 1/4⟩ =
      Except.error StoreError.limitExceeded ∧
    ((createPreset 1
      ⟨some "doc", [⟨"p1", none, 0, 0, 1/2, 1/2⟩], [],
        [⟨"p1", none, 0, 0, 1/2, 1/2⟩], []⟩
      ⟨"p2", none, 0, 0, 1/4, 1/4⟩).toOption.getD
        ⟨some "doc", [⟨"p1", none, 0, 0, 1/2, 1/2⟩], [],
          [⟨"p1", none, 0, 0, 1/2, 1/2⟩], []⟩).presets =
      [⟨"p1", none, 0, 0, 1/2, 1/2⟩] ∧
    ((createPreset 1
      ⟨some "doc", [⟨"p1", none, 0, 0, 1/2, 1/2⟩], [],
        [⟨"p1", none, 0, 0, 1/2, 1/2⟩], []⟩
      ⟨"p2", none, 0, 0, 1/4, 1/4⟩).toOption.getD
        ⟨some "doc", [⟨"p1", none, 0, 0, 1/2, 1/2⟩], [],
          [⟨"p1", none, 0, 0, 1/2, 1/2⟩], []⟩).persistedPresets =
      [⟨"p1", none, 0, 0, 1/2, 1/2⟩]) :=
  ⟨rfl, rfl, c4_createPreset_limit 1 _ _ "doc" rfl rfl⟩

/-- C5 (counterexample): the claimed cleanup does not extend to the
persisted page-state store.  Deleting preset `p1`, applied to page 1,
clears the in-memory entry but leaves the persisted `pageStates` record
still referencing `p1`. -/
theorem c5_cleanup_counterexample :
    lookupPage (deletePreset
      ⟨some "doc", [⟨"p1", none, 0, 0, 1/2, 1/2⟩], [(1, some "p1")],
        [⟨"p1", none, 0, 0, 1/2, 1/2⟩], [(1, some "p1")]⟩ "p1").pages 1 =
      some none ∧
    lookupPage (deletePreset
      ⟨some "doc", [⟨"p1", none, 0, 0, 1/2, 1/2⟩], [(1, some "p1")],
        [⟨"p1", none, 0, 0, 1/2, 1/2⟩], [(1, some "p1")]⟩
      "p1").persistedPageStates 1 = some (some "p1") := by
  constructor
  · rfl
  · rfl

/-- C5 (amended): `deletePreset` removes the preset from the in-memory list
and from the persisted preset collection, and clears `appliedPresetId` on
exactly the in-memory page entries that referenced it, leaving all other
page entries and presets unchanged; the persisted page-state store, however,
is not updated (its entries keep referencing the deleted preset). -/
theorem c5_deletePreset_cleanup (ws : Workspace) (pid : String)
    (docId : String) (hdoc : ws.pdfId = some docId) :
    (∀ p : CropPreset,
      p ∈ (deletePreset ws pid).presets ↔ p ∈ ws.presets ∧ p.id ≠ pid) ∧
    (∀ p : CropPreset,
      p ∈ (deletePreset ws pid).persistedPresets ↔
        p ∈ ws.persistedPresets ∧ p.id ≠ pid) ∧
    (∀ n : ℕ, lookupPage (deletePreset ws pid).pages n =
      (lookupPage ws.pages n).map (fun v => if v = some pid then none else v)) ∧
    (deletePreset ws pid).persistedPageStates = ws.persistedPageStates := by
  simp only [deletePreset, hdoc]
  refine ⟨?_, ?_, ?_, trivial⟩
  · intro p
    simp [List.mem_filter]
  · intro p
    simp [List.mem_filter]
  · intro n
    exact lookupPage_map_clear pid ws.pages n

/-- C5 (witness): the amended cleanup at a workspace holding two presets,
one applied to page 1 and page 3, the other applied to page 2. -/
theorem c5_deletePreset_cleanup_witness :
    (⟨some "doc", [⟨"p1", none, 0, 0, 1/2, 1/2⟩, ⟨"p2", none, 0, 0, 1/4, 1/4⟩],
      [(1, some "p1"), (2, some "p2"), (3, some "p1")],
      [⟨"p1", none, 0, 0, 1/2, 1/2⟩, ⟨"p2", none, 0, 0, 1/4, 1/4⟩],
      [(1, some "p1"), (2, some "p2"), (3, some "p1")]⟩ : Workspace).pdfId =
      some "doc" ∧
    (∀ p : CropPreset,
      p ∈ (deletePreset
        ⟨some "doc", [⟨"p1", none, 0, 0, 1/2, 1/2⟩, ⟨"p2", none, 0, 0, 1/4, 1/4⟩],
          [(1, some "p1"), (2, some "p2"), (3, some "p1")],
          [⟨"p1", none, 0, 0, 1/2, 1/2⟩, ⟨"p2", none, 0, 0, 1/4, 1/4⟩],
          [(1, some "p1"), (2, some "p2"), (3, some "p1")]⟩ "p1").presets ↔
        p ∈ [⟨"p1", none, 0, 0, 1/2, 1/2⟩, ⟨"p2", none, 0, 0, 1/4, 1/4⟩] ∧
          p.id ≠ "p1") ∧
    (∀ p : CropPreset,
      p ∈ (deletePreset
        ⟨some "doc", [⟨"p1", none, 0, 0, 1/2, 1/2⟩, ⟨"p2", none, 0, 0, 1/4, 1/4⟩],
          [(1, some "p1"), (2, some "p2"), (3, some "p1")],
          [⟨"p1", none, 0, 0, 1/2, 1/2⟩, ⟨"p2", none, 0, 0, 1/4, 1/4⟩],
          [(1, some "p1"), (2, some "p2"), (3, some "p1")]⟩
        "p1").persistedPresets ↔
        p ∈ [⟨"p1", none, 0, 0, 1/2, 1/2⟩, ⟨"p2", none, 0, 0, 1/4, 1/4⟩] ∧
          p.id ≠ "p1") ∧
    (∀ n : ℕ, lookupPage (deletePreset
        ⟨some "doc", [⟨"p1", none, 0, 0, 1/2, 1/2⟩, ⟨"p2", none, 0, 0, 1/4, 1/4⟩],
          [(1, some "p1"), (2, some "p2"), (3, some "p1")],
          [⟨"p1", none, 0, 0, 1/2, 1/2⟩, ⟨"p2", none, 0, 0, 1/4, 1/4⟩],
          [(1, some "p1"), (2, some "p2"), (3, some "p1")]⟩ "p1").pages n =
      (lookupPage [(1, some "p1"), (2, some "p2"), (3, some "p1")] n).map
        (fun v => if v = some "p1" then none else v)) ∧
    (deletePreset
      ⟨some "doc", [⟨"p1", none, 0, 0, 1/2, 1/2⟩, ⟨"p2", none, 0, 0, 1/4, 1/4⟩],
        [(1, some "p1"), (2, some "p2"), (3, some "p1")],
        [⟨"p1", none, 0, 0, 1/2, 1/2⟩, ⟨"p2", none, 0, 0, 1/4, 1/4⟩],
        [(1, some "p1"), (2, some "p2"), (3, some "p1")]⟩
      "p1").persistedPageStates =
      [(1, some "p1"), (2, some "p2"), (3, some "p1")] :=
  ⟨rfl, (c5_deletePreset_cleanup _ "p1" "doc" rfl).1,
   (c5_deletePreset_cleanup _ "p1" "doc" rfl).2.1,
   (c5_deletePreset_cleanup _ "p1" "doc" rfl).2.2.1,
   (c5_deletePreset_cleanup _ "p1" "doc" rfl).2.2.2⟩

/-! ## Interactive resize (`handleMouseMove` resize branch,
`src/unnamed/part_004` lines 280–357) -/

/-- The eight resize handles of a selected preset overlay. -/
inductive Handle
  | nw | ne | sw | se | n | s | e | w
deriving DecidableEq, Repr

/-- One resize update of `handleMouseMove` (`src/unnamed/part_004` lines
280–357): given the preset geometry at drag start `(x0, y0, w0, h0)` and the
pointer delta `(dX, dY)` in ratio space, compute the handle-specific new
rectangle, enforce the 0.01 minimum size (shifting the origin back for the
`nw`/`n`/`w` handles), and clamp the origin so the rectangle stays inside
`[0,1]`.  JS `0.01` is modelled as the exact rational `1/100`. -/
def resizeStep (handle : Handle) (x0 y0 w0 h0 dX dY : ℚ) : RatioRect :=
  let r1 : RatioRect :=
    match handle with
    | .nw =>
        let nx := clamp (x0 + dX) 0 (x0 + w0 - 1/100)
        let ny := clamp (y0 + dY) 0 (y0 + h0 - 1/100)
        ⟨nx, ny, x0 + w0 - nx, y0 + h0 - ny⟩
    | .ne =>
        let ny := clamp (y0 + dY) 0 (y0 + h0 - 1/100)
        ⟨x0, ny, clamp (w0 + dX) (1/100) (1 - x0), y0 + h0 - ny⟩
    | .sw =>
        let nx := clamp (x0 + dX) 0 (x0 + w0 - 1/100)
        ⟨nx, y0, x0 + w0 - nx, clamp (h0 + dY) (1/100) (1 - y0)⟩
    | .se =>
        ⟨x0, y0, clamp (w0 + dX) (1/100) (1 - x0),
         clamp (h0 + dY) (1/100) (1 - y0)⟩
    | .n =>
        let ny := clamp (y0 + dY) 0 (y0 + h0 - 1/100)
        ⟨x0, ny, w0, y0 + h0 - ny⟩
    | .s => ⟨x0, y0, w0, clamp (h0 + dY) (1/100) (1 - y0)⟩
    | .e => ⟨x0, y0, clamp (w0 + dX) (1/100) (1 - x0), h0⟩
    | .w =>
        let nx := clamp (x0 + dX) 0 (x0 + w0 - 1/100)
        ⟨nx, y0, x0 + w0 - nx, h0⟩
  let minSize : ℚ := 1/100
  let x2 := if r1.width < minSize ∧ (handle = .nw ∨ handle = .w) then
    x0 + w0 - minSize else r1.x
  let w2 := if r1.width < minSize then minSize else r1.width
  let y2 := if r1.height < minSize ∧ (handle = .nw ∨ handle = .n) then
    y0 + h0 - minSize else r1.y
  let h2 := if r1.height < minSize then minSize else r1.height
  ⟨clamp x2 0 (1 - w2), clamp y2 0 (1 - h2), w2, h2⟩

/-- C9: resizing via the `se` handle from a geometry satisfying the §3
invariant (with the 0.01 minimum size) leaves the origin unchanged and sets
the new size to the delta-grown size clamped between the 0.01 floor and the
`1 − origin` bound; in particular from `{x:0.2, y:0.2, w:0.3, h:0.3}` with
delta `(+0.1, +0.05)` the result is `{x:0.2, y:0.2, w:0.4, h:0.35}`. -/
theorem c9_resize_se (x0 y0 w0 h0 dX dY : ℚ)
    (hx : 0 ≤ x0) (hy : 0 ≤ y0)
    (hw0 : 1/100 ≤ w0) (hwx : w0 ≤ 1 - x0)
    (hh0 : 1/100 ≤ h0) (hhy : h0 ≤ 1 - y0) :
    resizeStep .se x0 y0 w0 h0 dX dY =
      ⟨x0, y0, clamp (w0 + dX) (1/100) (1 - x0),
       clamp (h0 + dY) (1/100) (1 - y0)⟩ := by
  have h1 : (1 : ℚ)/100 ≤ 1 - x0 := le_trans hw0 hwx
  have h2 : (1 : ℚ)/100 ≤ 1 - y0 := le_trans hh0 hhy
  have hW : 1/100 ≤ clamp (w0 + dX) (1/100) (1 - x0) := le_clamp _ _ _
  have hWle : clamp (w0 + dX) (1/100) (1 - x0) ≤ 1 - x0 := clamp_le h1
  have hH : 1/100 ≤ clamp (h0 + dY) (1/100) (1 - y0) := le_clamp _ _ _
  have hHle : clamp (h0 + dY) (1/100) (1 - y0) ≤ 1 - y0 := clamp_le h2
  have hnW : ¬ (clamp (w0 + dX) (1/100) (1 - x0) < 1/100) := not_lt.mpr hW
  have hnH : ¬ (clamp (h0 + dY) (1/100) (1 - y0) < 1/100) := not_lt.mpr hH
  simp only [resizeStep]
  rw [if_neg (fun hc => hnW hc.1), if_neg hnW,
    if_neg (fun hc => hnH hc.1), if_neg hnH]
  rw [clamp_eq_self hx (by linarith), clamp_eq_self hy (by linarith)]

/-- C9 (witness): the spec's concrete `se`-handle scenario. -/
theorem c9_resize_se_witness :
    (0 : ℚ) ≤ 2/10 ∧ (1 : ℚ)/100 ≤ 3/10 ∧ (3 : ℚ)/10 ≤ 1 - 2/10 ∧
    resizeStep Handle.se (2/10) (2/10) (3/10) (3/10) (1/10) (5/100) =
      (⟨2/10, 2/10, 4/10, 35/100⟩ : RatioRect) :=
  ⟨by norm_num, by norm_num, by norm_num,
   (c9_resize_se (2/10) (2/10) (3/10) (3/10) (1/10) (5/100) (by norm_num)
     (by norm_num) (by norm_num) (by norm_num) (by norm_num)
     (by norm_num)).trans
     (by norm_num [clamp, max_def, min_def, RatioRect.mk.injEq])⟩

/-! ## Chunked binary store (`src/utils/indexed-db.ts`) -/

/-- `CHUNK_SIZE` from `src/utils/indexed-db.ts` line 18: 8 MB. -/
def CHUNK_SIZE : ℕ := 8 * 1024 * 1024

/-- `chunkArrayBuffer` (`src/utils/indexed-db.ts` lines 91–102): slice the
buffer into consecutive chunks of `chunkSize` bytes, the last chunk holding
the remainder.  The JS `while` loop never terminates for `chunkSize = 0`
(its callers always pass the positive `CHUNK_SIZE`); that unreachable case
is mapped to `[]` here so the recursion is well-founded. -/
def chunkArrayBuffer (buffer : List ℕ) (chunkSize : ℕ) : List (List ℕ) :=
  if _h : buffer = [] ∨ chunkSize = 0 then []
  else
    buffer.take chunkSize :: chunkArrayBuffer (buffer.drop chunkSize) chunkSize
termination_by buffer.length
decreasing_by
  push_neg at _h
  have hpos : 0 < buffer.length := List.length_pos.mpr _h.1
  simp only [List.length_drop]
  omega

/-- The persisted state produced by `storePdf`: the `pdfMetadata` record's
`numChunks` field and the `pdfChunks` records, chunk `i` retrievable at
index `i` (the store is keyed by `(pdfId, chunkIndex)`). -/
structure StoredPdf where
  numChunks : ℕ
  chunks : List (List ℕ)
deriving DecidableEq, Repr

/-- `storePdf` (`src/utils/indexed-db.ts` lines 107–141): chunk the buffer
with `CHUNK_SIZE`, record `numChunks` in the metadata and store each chunk
under its index. -/
def storePdf (buffer : List ℕ) : StoredPdf :=
  let chunks := chunkArrayBuffer buffer CHUNK_SIZE
  { numChunks := chunks.length, chunks := chunks }

/-- `getPdfBlob` (`src/utils/indexed-db.ts` lines 146–200): look up chunks
`0 .. numChunks−1` by index — failing (`none`, the model of the thrown
`Missing chunk` error) if any is absent — and concatenate them in index
order. -/
def getPdfBlob (s : StoredPdf) : Option (List ℕ) :=
  ((List.range s.numChunks).mapM (fun i => s.chunks[i]?)).map List.flatten

theorem chunk_props_aux (cs : ℕ) (hcs : 0 < cs) :
    ∀ fuel (buf : List ℕ), buf.length ≤ fuel →
      (chunkArrayBuffer buf cs).flatten = buf ∧
      (∀ c ∈ chunkArrayBuffer buf cs, c.length ≤ cs) ∧
      (∀ i, i + 1 < (chunkArrayBuffer buf cs).length →
        ((chunkArrayBuffer buf cs).getD i []).length = cs) := by
  intro fuel
  induction fuel with
  | zero =>
      intro buf hb
      have hnil : buf = [] := List.eq_nil_of_length_eq_zero (Nat.le_zero.mp hb)
      subst hnil
      rw [chunkArrayBuffer]
      simp
  | succ n ih =>
      intro buf hb
      rw [chunkArrayBuffer]
      by_cases hc : buf = [] ∨ cs = 0
      · rw [dif_pos hc]
        rcases hc with hc | hc
        · subst hc; simp
        · omega
      · rw [dif_neg hc]
        push_neg at hc
        have hpos : 0 < buf.length := List.length_pos.mpr hc.1
        have hdrop : (buf.drop cs).length ≤ n := by
          simp only [List.length_drop]; omega
        obtain ⟨ihj, ihb, ihf⟩ := ih (buf.drop cs) hdrop
        refine ⟨?_, ?_, ?_⟩
        · simp only [List.flatten_cons, ihj]
          exact List.take_append_drop cs buf
        · intro c hcmem
          rcases List.mem_cons.mp hcmem with hcm | hcm
          · subst hcm
            simp only [List.length_take]
            exact Nat.min_le_left cs buf.length
          · exact ihb c hcm
        · intro i hi
          cases i with
          | zero =>
              simp only [List.getD_cons_zero]
              have hne : chunkArrayBuffer (buf.drop cs) cs ≠ [] := by
                intro hnil
                rw [List.length_cons, hnil] at hi
                simp at hi
              have hdne : buf.drop cs ≠ [] := by
                intro hd
                rw [chunkArrayBuffer] at hne
                simp [hd] at hne
              have hlt : cs < buf.length := by
                by_contra hcon
                push_neg at hcon
                exact hdne (List.drop_eq_nil_of_le hcon)
              simp only [List.length_take]
              omega
          | succ j =>
              simp only [List.getD_cons_succ]
              refine ihf j ?_
              rw [List.length_cons] at hi
              omega

theorem getElem?_mapM_range {α : Type} :
    ∀ (l pre : List α),
      (List.range' pre.length l.length).mapM (fun i => (pre ++ l)[i]?) =
        some l := by
  intro l
  induction l with
  | nil => intro pre; rfl
  | cons a t ih =>
      intro pre
      rw [List.length_cons, List.range'_succ, List.mapM_cons]
      have h1 : (pre ++ a :: t)[pre.length]? = some a := by
        rw [List.getElem?_append_right le_rfl]
        simp
      rw [h1]
      have h2 : pre ++ a :: t = (pre ++ [a]) ++ t := by
        simp
      have h3 : pre.length + 1 = (pre ++ [a]).length := by
        simp
      rw [h2, h3, ih (pre ++ [a])]
      rfl

/-- C10: `chunkArrayBuffer` splits a buffer into chunks of at most
`chunkSize` bytes, every chunk but possibly the last being exactly
`chunkSize`, whose in-order concatenation is the original buffer; and the
chunked binary store round-trips: reassembling a stored file's chunks with
`getPdfBlob` returns exactly the bytes given to `storePdf`. -/
theorem c10_chunk_roundtrip (buffer : List ℕ) (chunkSize : ℕ)
    (hcs : 0 < chunkSize) :
    (chunkArrayBuffer buffer chunkSize).flatten = buffer ∧
    (∀ c ∈ chunkArrayBuffer buffer chunkSize, c.length ≤ chunkSize) ∧
    (∀ i, i + 1 < (chunkArrayBuffer buffer chunkSize).length →
      ((chunkArrayBuffer buffer chunkSize).getD i []).length = chunkSize) ∧
    getPdfBlob (storePdf buffer) = some buffer := by
  obtain ⟨hj, hb, hf⟩ :=
    chunk_props_aux chunkSize hcs buffer.length buffer le_rfl
  refine ⟨hj, hb, hf, ?_⟩
  obtain ⟨hj8, _, _⟩ :=
    chunk_props_aux CHUNK_SIZE (by norm_num [CHUNK_SIZE]) buffer.length buffer
      le_rfl
  unfold getPdfBlob storePdf
  have := getElem?_mapM_range (chunkArrayBuffer buffer CHUNK_SIZE) []
  simp only [List.nil_append, List.length_nil] at this
  rw [List.range_eq_range', this]
  simp [hj8]

/-- C10 (witness): a 5-byte buffer with chunk size 2 splits into `[2,2,1]`
byte chunks and round-trips through the store. -/
theorem c10_chunk_roundtrip_witness :
    0 < 2 ∧
    (chunkArrayBuffer [1, 2, 3, 4, 5] 2).flatten = [1, 2, 3, 4, 5] ∧
    (∀ c ∈ chunkArrayBuffer [1, 2, 3, 4, 5] 2, c.length ≤ 2) ∧
    (∀ i, i + 1 < (chunkArrayBuffer [1, 2, 3, 4, 5] 2).length →
      ((chunkArrayBuffer [1, 2, 3, 4, 5] 2).getD i []).length = 2) ∧
    getPdfBlob (storePdf [1, 2, 3, 4, 5]) = some [1, 2, 3, 4, 5] :=
  ⟨by decide, c10_chunk_roundtrip [1, 2, 3, 4, 5] 2 (by decide)⟩
